import Mathlib

/-!
Verification development for the Momentum task-and-focus tracker.

The definitions below are a shallow embedding of the persistence layer
(`momentum/db.py`), the validation rules of the Pydantic input models
(`momentum/models.py`), and the scoring engine (`momentum/assessments.py`).

Conventions of the embedding:
* calendar dates are integers (days); `date.today()` becomes an explicit
  `today : Int` argument and `timedelta(days=1)` is subtraction of 1
  (ISO date strings are in order-preserving bijection with such integers);
* timestamps (`datetime.now()`) are abstract `Nat` arguments;
* SQLite tables are Lean lists of row structures; the `ON CONFLICT`
  upserts of `daily_log` become explicit insert-or-update functions;
* Python ints are `Int`; SQLite INTEGER columns are `Int`;
* fallible operations return `Option`.
-/

namespace Momentum

/-- Task lifecycle states (`TaskStatus` in models.py). -/
inductive TaskStatus where
  | pending
  | active
  | done
deriving DecidableEq, Repr

/-- A row of the `tasks` table. -/
structure TaskRow where
  id : Nat
  title : String
  parent_id : Option Nat
  status : TaskStatus
  created_at : Nat
  completed_at : Option Nat
deriving DecidableEq, Repr

/-- A row of the `daily_log` table (PRIMARY KEY is `date`). -/
structure DailyRow where
  date : Int
  tasks_completed : Int
  focus_minutes : Int
deriving DecidableEq, Repr

/-- A row of the `focus_sessions` table. -/
structure FocusRow where
  id : Nat
  task_id : Option Nat
  duration_minutes : Int
  completed_at : Nat
deriving DecidableEq, Repr

/-- A row of the `assessments` table; `domain_scores` is the stored JSON text. -/
structure AssessmentRow where
  id : Nat
  typ : String
  score : Int
  max_score : Int
  domain_scores : List Char
  taken_at : Nat
deriving DecidableEq, Repr

/-- The whole SQLite database state. -/
structure DB where
  tasks : List TaskRow
  focus_sessions : List FocusRow
  daily_log : List DailyRow
  assessments : List AssessmentRow
deriving DecidableEq, Repr

/-- The empty database (fresh schema). -/
def DB.empty : DB := ⟨[], [], [], []⟩

/-- `SELECT * FROM tasks WHERE id = ?` (first row, `id` being the primary key). -/
def get_task (db : DB) (task_id : Nat) : Option TaskRow :=
  db.tasks.find? (fun t => t.id == task_id)

/-- The `INSERT INTO daily_log (date, tasks_completed, focus_minutes) VALUES (?, 1, 0)
ON CONFLICT(date) DO UPDATE SET tasks_completed = tasks_completed + 1` upsert
of `complete_task`. -/
def upsertTasksCompleted (log : List DailyRow) (d : Int) : List DailyRow :=
  if log.any (fun r => r.date == d) then
    log.map (fun r =>
      if r.date = d then { r with tasks_completed := r.tasks_completed + 1 } else r)
  else
    log ++ [{ date := d, tasks_completed := 1, focus_minutes := 0 }]

/-- The `INSERT INTO daily_log (date, tasks_completed, focus_minutes) VALUES (?, 0, ?)
ON CONFLICT(date) DO UPDATE SET focus_minutes = focus_minutes + ?` upsert
of `log_focus_session`. -/
def upsertFocusMinutes (log : List DailyRow) (d : Int) (m : Int) : List DailyRow :=
  if log.any (fun r => r.date == d) then
    log.map (fun r =>
      if r.date = d then { r with focus_minutes := r.focus_minutes + m } else r)
  else
    log ++ [{ date := d, tasks_completed := 0, focus_minutes := m }]

/-- `complete_task` from db.py: unconditionally runs the `UPDATE tasks` statement
(matching zero or one row), unconditionally runs the daily-log upsert, commits,
and returns `get_task` on the id (which is `none` when the id does not exist). -/
def complete_task (db : DB) (now : Nat) (today : Int) (task_id : Nat) :
    Option TaskRow × DB :=
  let tasks := db.tasks.map (fun t =>
    if t.id = task_id then
      { t with status := TaskStatus.done, completed_at := some now }
    else t)
  let log := upsertTasksCompleted db.daily_log today
  let db' : DB := { db with tasks := tasks, daily_log := log }
  (get_task db' task_id, db')

/-- `uncomplete_task` from db.py: `UPDATE tasks SET status = pending,
completed_at = NULL WHERE id = ?`, then `get_task`; the daily log is not touched. -/
def uncomplete_task (db : DB) (task_id : Nat) : Option TaskRow × DB :=
  let tasks := db.tasks.map (fun t =>
    if t.id = task_id then
      { t with status := TaskStatus.pending, completed_at := none }
    else t)
  let db' : DB := { db with tasks := tasks }
  (get_task db' task_id, db')

/-- Input model for logging a focus session (`FocusSessionCreate` in models.py). -/
structure FocusSessionCreate where
  task_id : Option Nat
  duration_minutes : Int
deriving DecidableEq, Repr

/-- Pydantic validation of `FocusSessionCreate`:
`duration_minutes: int = Field(gt=0, le=120)`. -/
def FocusSessionCreate.validate (task_id : Option Nat) (d : Int) :
    Option FocusSessionCreate :=
  if 0 < d ∧ d ≤ 120 then some ⟨task_id, d⟩ else none

/-- Input model for creating a task (`TaskCreate` in models.py). -/
structure TaskCreate where
  title : String
  parent_id : Option Nat
deriving DecidableEq, Repr

/-- Pydantic validation of `TaskCreate`:
`title: str = Field(min_length=1, max_length=500)`. -/
def TaskCreate.validate (title : String) (parent_id : Option Nat) :
    Option TaskCreate :=
  if 1 ≤ title.length ∧ title.length ≤ 500 then some ⟨title, parent_id⟩ else none

/-- `add_task` from db.py: insert a pending task row and return it. -/
def add_task (db : DB) (now : Nat) (t : TaskCreate) : TaskRow × DB :=
  let row : TaskRow :=
    { id := db.tasks.length + 1, title := t.title, parent_id := t.parent_id,
      status := TaskStatus.pending, created_at := now, completed_at := none }
  (row, { db with tasks := db.tasks ++ [row] })

/-- `log_focus_session` from db.py: insert the focus-session row, run the
daily-log upsert adding the duration to today's `focus_minutes`, commit, and
return the inserted row. -/
def log_focus_session (db : DB) (now : Nat) (today : Int) (s : FocusSessionCreate) :
    FocusRow × DB :=
  let row : FocusRow :=
    { id := db.focus_sessions.length + 1, task_id := s.task_id,
      duration_minutes := s.duration_minutes, completed_at := now }
  let log := upsertFocusMinutes db.daily_log today s.duration_minutes
  (row, { db with focus_sessions := db.focus_sessions ++ [row], daily_log := log })

/-- `get_daily_log` from db.py: the row for the date, zero-filled when absent. -/
def get_daily_log (log : List DailyRow) (d : Int) : DailyRow :=
  match log.find? (fun r => r.date == d) with
  | some r => r
  | none => { date := d, tasks_completed := 0, focus_minutes := 0 }

/-- Walking one day back strictly shrinks the number of dates at or before
the cursor, as long as the cursor itself is present: termination measure for
the `while` loop of `_calculate_streak`. -/
theorem filter_le_pred_length_lt (dates : List Int) (d : Int) (h : d ∈ dates) :
    (dates.filter (fun x => decide (x ≤ d - 1))).length
      < (dates.filter (fun x => decide (x ≤ d))).length := by
  induction dates with
  | nil => simp at h
  | cons a tl ih =>
    rcases List.mem_cons.mp h with rfl | hmem
    · have hsub : List.Sublist (tl.filter (fun x => decide (x ≤ d - 1)))
          (tl.filter (fun x => decide (x ≤ d))) :=
        List.monotone_filter_right tl (by intro x hx; simp at hx ⊢; omega)
      have hle := hsub.length_le
      have h1 : ¬ (d ≤ d - 1) := by omega
      have h2 : d ≤ d := le_refl d
      simp [List.filter_cons, h1, h2]
      omega
    · by_cases h1 : a ≤ d - 1
      · have h2 : a ≤ d := by omega
        simp [List.filter_cons, h1, h2]
        exact ih hmem
      · by_cases h2 : a ≤ d
        · simp [List.filter_cons, h1, h2]
          have := ih hmem
          omega
        · simp [List.filter_cons, h1, h2]
          exact ih hmem

/-- The `while check_date in dates` loop of `_calculate_streak`: count
consecutive dates present in `dates`, walking backward one day at a time. -/
def countBack (dates : List Int) (d : Int) : Nat :=
  if h : d ∈ dates then
    countBack dates (d - 1) + 1
  else
    0
termination_by (dates.filter (fun x => decide (x ≤ d))).length
decreasing_by
  exact filter_le_pred_length_lt dates d h

/-- `_calculate_streak` from db.py: the set of dates with `tasks_completed > 0`;
empty set gives 0; start from today, falling back to yesterday when today is
absent; then the backward-counting loop. -/
def calculate_streak (log : List DailyRow) (today : Int) : Nat :=
  let rows := log.filter (fun r => decide (0 < r.tasks_completed))
  if rows.isEmpty then 0
  else
    let dates := rows.map (fun r => r.date)
    if today ∈ dates then countBack dates today
    else if today - 1 ∈ dates then countBack dates (today - 1)
    else 0

/-- Streak reference, following the specification text: collect the set of
dates with completions; starting from today, if today is not in the set
step back one day, and if that day is also absent the streak is 0;
otherwise count backward day-by-day while each date is present, stopping
at the first gap. -/
def refStreak (S : List Int) (today : Int) : Nat :=
  if today ∈ S then countBack S today
  else if today - 1 ∈ S then countBack S (today - 1)
  else 0

/-- Available self-assessment types (`AssessmentType` in models.py). -/
inductive AssessmentType where
  | bdefs
  | stroop
deriving DecidableEq, Repr

/-- Serialized form of an `AssessmentType` (its `.value`). -/
def AssessmentType.value : AssessmentType → String
  | .bdefs => "bdefs"
  | .stroop => "stroop"

/-- Input model for saving an assessment (`AssessmentResultCreate` in models.py);
the Python dict `domain_scores` is an insertion-ordered association list. -/
structure AssessmentResultCreate where
  assessment_type : AssessmentType
  score : Int
  max_score : Int
  domain_scores : List (String × Int)
deriving DecidableEq, Repr

/-- `BDEFS_QUESTIONS` from assessments.py: domain name to question list. -/
def BDEFS_QUESTIONS : List (String × List String) :=
  [("Time Management",
    ["I have difficulty estimating how long a task will take.",
     "I procrastinate or put off doing things until the last minute.",
     "I have trouble completing tasks on time."]),
   ("Organisation & Problem-Solving",
    ["I find it hard to organise my thoughts before starting a task.",
     "I struggle to break large projects into manageable steps.",
     "I have trouble keeping my workspace or living area tidy."]),
   ("Self-Restraint",
    ["I act on impulse without thinking about the consequences.",
     "I have difficulty waiting my turn or being patient.",
     "I interrupt others or blurt things out before they finish speaking."]),
   ("Self-Motivation",
    ["I lack the drive to start tasks even when I know they are important.",
     "I find it hard to sustain effort on tasks that are not immediately rewarding.",
     "I need external pressure (deadlines, others reminding me) to get things done."]),
   ("Emotion Regulation",
    ["I become frustrated or upset more easily than others.",
     "I have trouble calming myself down when I am angry or stressed.",
     "My emotional reactions feel out of proportion to the situation."])]

/-- `BDEFS_MIN_PER_ITEM` from assessments.py. -/
def BDEFS_MIN_PER_ITEM : Int := 1

/-- `BDEFS_MAX_PER_ITEM` from assessments.py. -/
def BDEFS_MAX_PER_ITEM : Int := 4

/-- `bdefs_max_score` from assessments.py: number of questions times the
per-item maximum. -/
def bdefs_max_score : Int :=
  ((BDEFS_QUESTIONS.map (fun p => (p.2.length : Int))).sum) * BDEFS_MAX_PER_ITEM

/-- `score_bdefs` from assessments.py: per-domain sums, their running total,
and the fixed maximum score. -/
def score_bdefs (answers : List (String × List Int)) : AssessmentResultCreate :=
  { assessment_type := AssessmentType.bdefs,
    score := (answers.map (fun p => p.2.sum)).sum,
    max_score := bdefs_max_score,
    domain_scores := answers.map (fun p => (p.1, p.2.sum)) }

/-- The "Minimal" interpretation sentence. -/
def BDEFS_MINIMAL : String :=
  "Minimal difficulties -- your executive functioning appears relatively strong."

/-- The "Mild" interpretation sentence. -/
def BDEFS_MILD : String :=
  "Mild difficulties -- some areas may benefit from targeted strategies."

/-- The "Moderate" interpretation sentence. -/
def BDEFS_MODERATE : String :=
  "Moderate difficulties -- structured routines and support strategies are recommended."

/-- The "Significant" interpretation sentence. -/
def BDEFS_SIGNIFICANT : String :=
  "Significant difficulties -- consider seeking professional assessment and support."

/-- `interpret_bdefs` from assessments.py. The Python `score / max_score * 100`
is float division; it is modelled with exact rational arithmetic. -/
def interpret_bdefs (score max_score : Int) : String :=
  let pct : ℚ := (score : ℚ) / (max_score : ℚ) * 100
  if pct ≤ 25 then BDEFS_MINIMAL
  else if pct ≤ 50 then BDEFS_MILD
  else if pct ≤ 75 then BDEFS_MODERATE
  else BDEFS_SIGNIFICANT

/-- `STROOP_COLOURS` from assessments.py. -/
def STROOP_COLOURS : List String := ["red", "green", "blue", "yellow"]

/-- `STROOP_DEFAULT_TRIALS` from assessments.py. -/
def STROOP_DEFAULT_TRIALS : Nat := 10

/-- A single Stroop trial (`StroopTrial` in assessments.py). -/
structure StroopTrial where
  word : String
  ink_colour : String
deriving DecidableEq, Repr

/-- `random.choice(lst)`: pick the element at the index the random source
supplies, reduced modulo the length so that every choice sequence is covered. -/
def pychoice (l : List String) (k : Nat) : String :=
  l.getD (k % l.length) ""

/-- `generate_stroop_trials` from assessments.py. The random source is an
explicit stream `g` of choices: trial `i` draws its word with choice `2*i`
from the palette and its ink with choice `2*i+1` from the palette minus
the chosen word. -/
def generate_stroop_trials (n : Nat) (g : Nat → Nat) : List StroopTrial :=
  (List.range n).map (fun i =>
    let word := pychoice STROOP_COLOURS (g (2 * i))
    let ink := pychoice (STROOP_COLOURS.filter (fun c => c != word)) (g (2 * i + 1))
    { word := word, ink_colour := ink })

/-- Aggregate result of a Stroop session (`StroopResult` in assessments.py);
Python floats are modelled as rationals. -/
structure StroopResult where
  trials : Nat
  correct : Nat
  total_time_s : ℚ
  per_trial : List (Bool × ℚ)

/-- `StroopResult.accuracy_pct`: `(correct / trials * 100) if trials else 0.0`. -/
def StroopResult.accuracy_pct (r : StroopResult) : ℚ :=
  if r.trials ≠ 0 then (r.correct : ℚ) / (r.trials : ℚ) * 100 else 0

/-- `StroopResult.avg_time_s`: `(total_time_s / trials) if trials else 0.0`. -/
def StroopResult.avg_time_s (r : StroopResult) : ℚ :=
  if r.trials ≠ 0 then r.total_time_s / (r.trials : ℚ) else 0

/-- The guarded accuracy percentage computed at the top of `interpret_stroop`:
`pct = correct / trials * 100 if trials else 0`. -/
def stroop_pct (correct trials : Nat) : ℚ :=
  if trials ≠ 0 then (correct : ℚ) / (trials : ℚ) * 100 else 0

/-- The accuracy sentence appended to `parts` in `interpret_stroop`. -/
def stroopAccSentence (pct : ℚ) : String :=
  if 90 ≤ pct then "Excellent accuracy -- strong inhibitory control."
  else if 70 ≤ pct then "Good accuracy -- inhibitory control is adequate."
  else if 50 ≤ pct then
    "Moderate accuracy -- you may benefit from impulse-management strategies."
  else "Low accuracy -- inhibitory control may be an area to work on."

/-- The speed sentence appended to `parts` in `interpret_stroop`. -/
def stroopSpeedSentence (avg_ms : Int) : String :=
  if avg_ms ≤ 1000 then "Your response time is fast."
  else if avg_ms ≤ 2000 then "Your response time is average."
  else "Your response time is on the slower side; take your time and focus on accuracy."

/-- `interpret_stroop` from assessments.py: the two sentences joined by a space. -/
def interpret_stroop (correct trials : Nat) (avg_ms : Int) : String :=
  stroopAccSentence (stroop_pct correct trials) ++ " " ++ stroopSpeedSentence avg_ms

/-! ### JSON fragment

`save_assessment` serializes `domain_scores` with `json.dumps` and
`_row_to_assessment` parses it back with `json.loads`.  The values are
Python `dict[str, int]`, so the relevant JSON fragment is objects whose
values are integers.  `dumps` below mirrors `json.dumps` with its default
arguments (`ensure_ascii=True`, separators `", "` and `": "`, short escapes
for quote, backslash and the five named control characters, `\uXXXX` for
other control and non-ASCII characters, UTF-16 surrogate pairs above
`0xFFFF`).  `json_loads_obj` mirrors `json.loads` restricted to this
fragment: an object of integer values, JSON whitespace, the same escape
table, and surrogate-pair joining (lone surrogate escapes, which Python
would turn into unpaired-surrogate strings that a Lean `Char` cannot hold
and which the encoder never emits, are rejected). -/

/-- The character `{`, written numerically. -/
def openBrace : Char := Char.ofNat 123

/-- The character `}`, written numerically. -/
def closeBrace : Char := Char.ofNat 125

/-- Decimal digit character. -/
def digitChar (n : Nat) : Char := Char.ofNat (48 + n)

/-- Lowercase hexadecimal digit character, as CPython's `\uXXXX` formatting. -/
def hexChar (n : Nat) : Char :=
  if n < 10 then Char.ofNat (48 + n) else Char.ofNat (87 + n)

/-- Four lowercase hex digits, most significant first. -/
def hex4 (n : Nat) : List Char :=
  [hexChar (n / 4096 % 16), hexChar (n / 256 % 16), hexChar (n / 16 % 16),
   hexChar (n % 16)]

/-- CPython `py_encode_basestring_ascii` escaping of one character. -/
def escapeChar (c : Char) : List Char :=
  let n := c.toNat
  if c = '"' then ['\\', '"']
  else if c = '\\' then ['\\', '\\']
  else if n = 8 then ['\\', 'b']
  else if n = 9 then ['\\', 't']
  else if n = 10 then ['\\', 'n']
  else if n = 12 then ['\\', 'f']
  else if n = 13 then ['\\', 'r']
  else if 32 ≤ n ∧ n ≤ 126 then [c]
  else if n < 65536 then '\\' :: 'u' :: hex4 n
  else
    ('\\' :: 'u' :: hex4 (55296 + (n - 65536) / 1024)) ++
      ('\\' :: 'u' :: hex4 (56320 + (n - 65536) % 1024))

/-- A JSON string literal: quote, escaped characters, quote. -/
def encString (s : String) : List Char :=
  '"' :: (s.data.map escapeChar).flatten ++ ['"']

/-- Decimal digits of a natural number (`repr` of a nonnegative Python int). -/
def natChars (n : Nat) : List Char :=
  if h : n < 10 then [digitChar n] else natChars (n / 10) ++ [digitChar (n % 10)]
termination_by n
decreasing_by
  exact Nat.div_lt_self (by omega) (by omega)

/-- `repr` of a Python int: optional minus sign, then decimal digits. -/
def intChars (v : Int) : List Char :=
  if v < 0 then '-' :: natChars v.natAbs else natChars v.natAbs

/-- One `key: value` member, with the default `": "` separator of `json.dumps`. -/
def encItem (p : String × Int) : List Char :=
  encString p.1 ++ ':' :: ' ' :: intChars p.2

/-- Join members with the default `", "` separator of `json.dumps`. -/
def joinItems : List (List Char) → List Char
  | [] => []
  | [x] => x
  | x :: y :: rest => x ++ ',' :: ' ' :: joinItems (y :: rest)

/-- `json.dumps` of a `dict[str, int]` (insertion-ordered association list). -/
def dumps (m : List (String × Int)) : List Char :=
  openBrace :: joinItems (m.map encItem) ++ [closeBrace]

/-- Skip JSON whitespace (space, tab, linefeed, carriage return). -/
def skipWs : List Char → List Char
  | [] => []
  | c :: rest =>
    if c = ' ' ∨ c = Char.ofNat 9 ∨ c = Char.ofNat 10 ∨ c = Char.ofNat 13 then
      skipWs rest
    else c :: rest

/-- Value of one hexadecimal digit (`int(_, 16)` accepts both cases). -/
def hexVal (c : Char) : Option Nat :=
  if 48 ≤ c.toNat ∧ c.toNat ≤ 57 then some (c.toNat - 48)
  else if 97 ≤ c.toNat ∧ c.toNat ≤ 102 then some (c.toNat - 87)
  else if 65 ≤ c.toNat ∧ c.toNat ≤ 70 then some (c.toNat - 55)
  else none

/-- Read exactly four hexadecimal digits. -/
def parseHex4 : List Char → Option (Nat × List Char)
  | a :: b :: c :: d :: rest =>
    match hexVal a, hexVal b, hexVal c, hexVal d with
    | some x, some y, some z, some w =>
      some (((x * 16 + y) * 16 + z) * 16 + w, rest)
    | _, _, _, _ => none
  | _ => none

/-- The surrogate-pair continuation of a `\uXXXX` escape whose first code
unit `hi` is a high surrogate: expect `\u`, four hex digits in the low
surrogate range, and join the pair. -/
def parseLowSurrogate (hi : Nat) : List Char → Option (Char × List Char)
  | a :: b :: rest2 =>
    if a = '\\' ∧ b = 'u' then
      match parseHex4 rest2 with
      | none => none
      | some (n2, rest3) =>
        if 56320 ≤ n2 ∧ n2 ≤ 57343 then
          some (Char.ofNat (65536 + (hi - 55296) * 1024 + (n2 - 56320)), rest3)
        else none
    else none
  | _ => none

/-- A `\uXXXX` escape body (after the `u`): four hex digits, with
surrogate-pair joining as in `py_scanstring`. -/
def parseUEscape (s : List Char) : Option (Char × List Char) :=
  match parseHex4 s with
  | none => none
  | some (n, rest1) =>
    if 55296 ≤ n ∧ n ≤ 56319 then parseLowSurrogate n rest1
    else if 56320 ≤ n ∧ n ≤ 57343 then none
    else some (Char.ofNat n, rest1)

/-- One escape sequence after a backslash, as `py_scanstring`: the fixed
escape table, and `\uXXXX` escapes. -/
def parseEscape : List Char → Option (Char × List Char)
  | [] => none
  | e :: rest =>
    if e = '"' then some ('"', rest)
    else if e = '\\' then some ('\\', rest)
    else if e = '/' then some ('/', rest)
    else if e = 'b' then some (Char.ofNat 8, rest)
    else if e = 'f' then some (Char.ofNat 12, rest)
    else if e = 'n' then some (Char.ofNat 10, rest)
    else if e = 'r' then some (Char.ofNat 13, rest)
    else if e = 't' then some (Char.ofNat 9, rest)
    else if e = 'u' then parseUEscape rest
    else none

/-- The body of a JSON string literal after the opening quote, as
`py_scanstring`: literal characters until the closing quote, with
backslash escapes.  The recursion budget `fuel` bounds the number of
scanned logical characters; every caller passes at least the input
length, which always suffices because each step consumes input. -/
def parseStringBodyF : Nat → List Char → Option (List Char × List Char)
  | 0, _ => none
  | _ + 1, [] => none
  | fuel + 1, c :: rest =>
    if c = '"' then some ([], rest)
    else if c = '\\' then
      match parseEscape rest with
      | none => none
      | some (d, rest1) =>
        match parseStringBodyF fuel rest1 with
        | none => none
        | some (s, rest2) => some (d :: s, rest2)
    else
      match parseStringBodyF fuel rest with
      | none => none
      | some (s, rest1) => some (c :: s, rest1)

/-- A JSON string literal: opening quote then the string body, with a
budget that the remaining input length always covers. -/
def parseJString : List Char → Option (List Char × List Char)
  | [] => none
  | c :: rest => if c = '"' then parseStringBodyF rest.length rest else none

/-- Decimal digit test. -/
def isDigitCh (c : Char) : Bool := decide (48 ≤ c.toNat ∧ c.toNat ≤ 57)

/-- A run of decimal digits, as the JSON number grammar restricted to the
integers `json.dumps` emits (no fraction, no exponent). -/
def parseNat (s : List Char) : Option (Nat × List Char) :=
  if (s.takeWhile isDigitCh).isEmpty then none
  else
    some ((s.takeWhile isDigitCh).foldl (fun acc c => acc * 10 + (c.toNat - 48)) 0,
      s.dropWhile isDigitCh)

/-- A JSON integer: optional minus sign then digits. -/
def parseInt (s : List Char) : Option (Int × List Char) :=
  match s with
  | [] => none
  | c :: rest =>
    if c = '-' then
      match parseNat rest with
      | some (n, r) => some (-(n : Int), r)
      | none => none
    else
      match parseNat (c :: rest) with
      | some (n, r) => some ((n : Int), r)
      | none => none

/-- The member list of a JSON object, starting right after `{` (on input
known not to start with `}`): string key, `:`, integer value, then either
`,` and further members or the closing `}`, with JSON whitespace allowed
around the punctuation as in `json.loads`.  The budget `fuel` bounds the
number of members; every caller passes at least the input length, which
always suffices because each member consumes input. -/
def parseMembersF : Nat → List Char → Option (List (String × Int) × List Char)
  | 0, _ => none
  | fuel + 1, s =>
    match parseJString s with
    | none => none
    | some (k, s1) =>
      match skipWs s1 with
      | [] => none
      | c2 :: s2 =>
        if c2 = ':' then
          match parseInt (skipWs s2) with
          | none => none
          | some (v, s3) =>
            match skipWs s3 with
            | [] => none
            | c4 :: s4 =>
              if c4 = ',' then
                match parseMembersF fuel (skipWs s4) with
                | none => none
                | some (ms, r) => some ((String.mk k, v) :: ms, r)
              else if c4 = closeBrace then
                some ([(String.mk k, v)], s4)
              else none
        else none

/-- `json.loads` restricted to a single object with integer values:
optional leading whitespace, `{`, either an immediately closing `}` or a
member list, and nothing but whitespace after the object. -/
def json_loads_obj (s : List Char) : Option (List (String × Int)) :=
  match skipWs s with
  | [] => none
  | c :: rest =>
    if c = openBrace then
      match skipWs rest with
      | [] => none
      | c2 :: rest2 =>
        if c2 = closeBrace then
          if (skipWs rest2).isEmpty then some [] else none
        else
          match parseMembersF (c2 :: rest2).length (c2 :: rest2) with
          | none => none
          | some (ms, r) => if (skipWs r).isEmpty then some ms else none
    else none

/-- A completed assessment as returned to callers (`AssessmentResult` in
models.py), with `domain_scores` decoded back into a map. -/
structure AssessmentResult where
  id : Nat
  assessment_type : AssessmentType
  score : Int
  max_score : Int
  domain_scores : List (String × Int)
  taken_at : Nat
deriving DecidableEq, Repr

/-- `AssessmentType(row["type"])`: parse the stored type string. -/
def parseAssessmentType (s : String) : Option AssessmentType :=
  if s = "bdefs" then some AssessmentType.bdefs
  else if s = "stroop" then some AssessmentType.stroop
  else none

/-- `_row_to_assessment` from db.py: rebuild the model from a stored row,
decoding `domain_scores` with `json.loads`. -/
def row_to_assessment (row : AssessmentRow) : Option AssessmentResult :=
  match parseAssessmentType row.typ, json_loads_obj row.domain_scores with
  | some ty, some ds =>
    some { id := row.id, assessment_type := ty, score := row.score,
           max_score := row.max_score, domain_scores := ds,
           taken_at := row.taken_at }
  | _, _ => none

/-- `save_assessment` from db.py: serialize `domain_scores` with
`json.dumps`, insert the row, and return it through `_row_to_assessment`. -/
def save_assessment (db : DB) (now : Nat) (r : AssessmentResultCreate) :
    Option AssessmentResult × DB :=
  let row : AssessmentRow :=
    { id := db.assessments.length + 1, typ := r.assessment_type.value,
      score := r.score, max_score := r.max_score,
      domain_scores := dumps r.domain_scores, taken_at := now }
  (row_to_assessment row, { db with assessments := db.assessments ++ [row] })

/-- Insert a row into a list sorted by `taken_at` descending. -/
def insertDesc (r : AssessmentRow) : List AssessmentRow → List AssessmentRow
  | [] => [r]
  | x :: xs => if r.taken_at ≤ x.taken_at then x :: insertDesc r xs else r :: x :: xs

/-- `ORDER BY taken_at DESC` as an insertion sort. -/
def sortByTakenAtDesc : List AssessmentRow → List AssessmentRow
  | [] => []
  | x :: xs => insertDesc x (sortByTakenAtDesc xs)

/-- `list_assessments` from db.py: optional type filter, most recent first,
`LIMIT` rows, each converted by `_row_to_assessment`. -/
def list_assessments (db : DB) (ty : Option AssessmentType) (limit : Nat) :
    Option (List AssessmentResult) :=
  let rows :=
    match ty with
    | some t => db.assessments.filter (fun r => r.typ == t.value)
    | none => db.assessments
  ((sortByTakenAtDesc rows).take limit).mapM row_to_assessment

/-! ### Round-trip lemmas for the JSON fragment -/

/-- A scalar value is outside the surrogate range and below `0x110000`. -/
theorem char_toNat_valid (c : Char) :
    c.toNat < 55296 ∨ (57343 < c.toNat ∧ c.toNat < 1114112) := by
  have h : Nat.isValidChar c.toNat := by
    simpa [Char.toNat, UInt32.isValidChar] using c.valid
  rcases h with h | h
  · exact Or.inl h
  · exact Or.inr (by omega)

/-- `Char.toNat` inverts `Char.ofNat` on valid code points. -/
theorem toNat_ofNat_valid {n : Nat} (h : n.isValidChar) :
    (Char.ofNat n).toNat = n := by
  unfold Char.ofNat
  rw [dif_pos h]
  rfl

/-- Code points below the surrogate range are valid. -/
theorem isValidChar_lt {n : Nat} (h : n < 55296) : n.isValidChar := by
  unfold Nat.isValidChar
  exact Or.inl h

/-- `hexVal` inverts `hexChar` on hex digits. -/
theorem hexVal_hexChar : ∀ d < 16, hexVal (hexChar d) = some d := by
  intro d hd
  by_cases h : d < 10
  · have hv : (48 + d).isValidChar := isValidChar_lt (by omega)
    simp only [hexChar, if_pos h, hexVal, toNat_ofNat_valid hv]
    rw [if_pos (by omega)]
    simp
  · have hv : (87 + d).isValidChar := isValidChar_lt (by omega)
    simp only [hexChar, if_neg h, hexVal, toNat_ofNat_valid hv]
    rw [if_neg (by omega), if_pos (by omega)]
    simp

/-- `parseHex4` inverts `hex4` below `0x10000`. -/
theorem parseHex4_hex4 (n : Nat) (h : n < 65536) (rest : List Char) :
    parseHex4 (hex4 n ++ rest) = some (n, rest) := by
  have h3 : n / 4096 % 16 < 16 := Nat.mod_lt _ (by omega)
  have h2 : n / 256 % 16 < 16 := Nat.mod_lt _ (by omega)
  have h1 : n / 16 % 16 < 16 := Nat.mod_lt _ (by omega)
  have h0 : n % 16 < 16 := Nat.mod_lt _ (by omega)
  simp only [hex4, List.cons_append, List.nil_append, parseHex4,
    hexVal_hexChar _ h3, hexVal_hexChar _ h2, hexVal_hexChar _ h1,
    hexVal_hexChar _ h0, Option.some.injEq, Prod.mk.injEq]
  constructor
  · omega
  · trivial

/-- Evaluation of `parseUEscape` once the four hex digits are known. -/
theorem parseUEscape_eval (s : List Char) (n : Nat) (r : List Char)
    (h : parseHex4 s = some (n, r)) :
    parseUEscape s =
      (if 55296 ≤ n ∧ n ≤ 56319 then parseLowSurrogate n r
       else if 56320 ≤ n ∧ n ≤ 57343 then none
       else some (Char.ofNat n, r)) := by
  unfold parseUEscape
  rw [h]

/-- Scanning one escaped character: the scanner undoes `escapeChar` and
moves on. -/
theorem parseStringBodyF_escapeChar (fuel : Nat) (c : Char) (t : List Char) :
    parseStringBodyF (fuel + 1) (escapeChar c ++ t) =
      match parseStringBodyF fuel t with
      | none => none
      | some (s, r) => some (c :: s, r) := by
  have hval := char_toNat_valid c
  by_cases h1 : c = '"'
  · subst h1
    simp [escapeChar, parseStringBodyF, parseEscape]
  by_cases h2 : c = '\\'
  · subst h2
    simp [escapeChar, parseStringBodyF, parseEscape]
  by_cases h3 : c.toNat = 8
  · have hc : Char.ofNat 8 = c := by rw [← h3, Char.ofNat_toNat]
    simp only [escapeChar, if_neg h1, if_neg h2, if_pos h3]
    simp [parseStringBodyF, parseEscape]
    rw [hc]
  by_cases h4 : c.toNat = 9
  · have hc : Char.ofNat 9 = c := by rw [← h4, Char.ofNat_toNat]
    simp only [escapeChar, if_neg h1, if_neg h2, if_neg h3, if_pos h4]
    simp [parseStringBodyF, parseEscape]
    rw [hc]
  by_cases h5 : c.toNat = 10
  · have hc : Char.ofNat 10 = c := by rw [← h5, Char.ofNat_toNat]
    simp only [escapeChar, if_neg h1, if_neg h2, if_neg h3, if_neg h4, if_pos h5]
    simp [parseStringBodyF, parseEscape]
    rw [hc]
  by_cases h6 : c.toNat = 12
  · have hc : Char.ofNat 12 = c := by rw [← h6, Char.ofNat_toNat]
    simp only [escapeChar, if_neg h1, if_neg h2, if_neg h3, if_neg h4, if_neg h5,
      if_pos h6]
    simp [parseStringBodyF, parseEscape]
    rw [hc]
  by_cases h7 : c.toNat = 13
  · have hc : Char.ofNat 13 = c := by rw [← h7, Char.ofNat_toNat]
    simp only [escapeChar, if_neg h1, if_neg h2, if_neg h3, if_neg h4, if_neg h5,
      if_neg h6, if_pos h7]
    simp [parseStringBodyF, parseEscape]
    rw [hc]
  by_cases h8 : 32 ≤ c.toNat ∧ c.toNat ≤ 126
  · simp only [escapeChar, if_neg h1, if_neg h2, if_neg h3, if_neg h4, if_neg h5,
      if_neg h6, if_neg h7, if_pos h8]
    simp [parseStringBodyF, if_neg h1, if_neg h2]
  by_cases h9 : c.toNat < 65536
  · have hc : Char.ofNat c.toNat = c := Char.ofNat_toNat c
    have hns : ¬(55296 ≤ c.toNat ∧ c.toNat ≤ 56319) := by
      rcases hval with h | h <;> omega
    have hns2 : ¬(56320 ≤ c.toNat ∧ c.toNat ≤ 57343) := by
      rcases hval with h | h <;> omega
    simp only [escapeChar, if_neg h1, if_neg h2, if_neg h3, if_neg h4, if_neg h5,
      if_neg h6, if_neg h7, if_neg h8, if_pos h9]
    simp only [List.cons_append]
    simp [parseStringBodyF, parseEscape, parseUEscape,
      parseHex4_hex4 c.toNat h9, if_neg hns, if_neg hns2, hc]
  · have hlt : c.toNat < 1114112 := by rcases hval with h | h <;> omega
    have hhiv : 55296 + (c.toNat - 65536) / 1024 < 65536 := by omega
    have hhir : 55296 + (c.toNat - 65536) / 1024 ≤ 56319 := by omega
    have hlov : 56320 + (c.toNat - 65536) % 1024 < 65536 := by omega
    have hlor : 56320 + (c.toNat - 65536) % 1024 ≤ 57343 := by omega
    have hc : Char.ofNat c.toNat = c := Char.ofNat_toNat c
    have elow : parseLowSurrogate (55296 + (c.toNat - 65536) / 1024)
        ('\\' :: 'u' :: (hex4 (56320 + (c.toNat - 65536) % 1024) ++ t)) =
        some (c, t) := by
      simp only [parseLowSurrogate]
      rw [if_pos (by simp), parseHex4_hex4 _ hlov]
      simp only []
      rw [if_pos ⟨by omega, hlor⟩]
      have harg : 65536 + (55296 + (c.toNat - 65536) / 1024 - 55296) * 1024 +
          (56320 + (c.toNat - 65536) % 1024 - 56320) = c.toNat := by omega
      rw [harg, hc]
    have eesc : parseEscape ('u' :: (hex4 (55296 + (c.toNat - 65536) / 1024) ++
        ('\\' :: 'u' :: (hex4 (56320 + (c.toNat - 65536) % 1024) ++ t)))) =
        some (c, t) := by
      simp only [parseEscape]
      rw [if_neg (by decide), if_neg (by decide), if_neg (by decide),
        if_neg (by decide), if_neg (by decide), if_neg (by decide),
        if_neg (by decide), if_neg (by decide), if_pos trivial]
      rw [parseUEscape_eval _ _ _ (parseHex4_hex4 _ hhiv _)]
      rw [if_pos ⟨by omega, hhir⟩]
      exact elow
    simp only [escapeChar, if_neg h1, if_neg h2, if_neg h3, if_neg h4, if_neg h5,
      if_neg h6, if_neg h7, if_neg h8, if_neg h9]
    simp only [List.cons_append, List.append_assoc, List.nil_append]
    rw [parseStringBodyF]
    rw [if_neg (show ('\\' : Char) ≠ '"' by decide),
      if_pos (rfl : ('\\' : Char) = '\\')]
    rw [eesc]

/-- Each escaped character occupies at least one output character. -/
theorem escapeChar_length_pos (c : Char) : 1 ≤ (escapeChar c).length := by
  simp only [escapeChar]
  split_ifs <;> simp

/-- Escaping never shortens a string. -/
theorem length_le_flatten_escape (s : List Char) :
    s.length ≤ ((s.map escapeChar).flatten).length := by
  induction s with
  | nil => simp
  | cons c cs ih =>
    have := escapeChar_length_pos c
    simp only [List.map_cons, List.flatten_cons, List.length_append, List.length_cons]
    omega

/-- The scanner undoes the escaped body and stops at the closing quote. -/
theorem parseStringBodyF_enc (s : List Char) :
    ∀ (fuel : Nat) (t : List Char), s.length + 1 ≤ fuel →
    parseStringBodyF fuel ((s.map escapeChar).flatten ++ ('"' :: t)) = some (s, t) := by
  induction s with
  | nil =>
    intro fuel t hfuel
    match fuel, hfuel with
    | f + 1, _ => simp [parseStringBodyF]
  | cons c cs ih =>
    intro fuel t hfuel
    match fuel, hfuel with
    | f + 1, hf =>
      simp only [List.map_cons, List.flatten_cons, List.append_assoc]
      rw [parseStringBodyF_escapeChar]
      rw [ih f t (by simp at hf; omega)]

/-- `parseJString` undoes `encString`. -/
theorem parseJString_encString (k : String) (t : List Char) :
    parseJString (encString k ++ t) = some (k.data, t) := by
  have hshape : encString k ++ t
      = '"' :: ((k.data.map escapeChar).flatten ++ ('"' :: t)) := by
    simp [encString]
  rw [hshape]
  simp only [parseJString, if_pos rfl]
  apply parseStringBodyF_enc
  have h1 := length_le_flatten_escape k.data
  rw [List.length_append, List.length_cons]
  omega

/-- `digitChar` has the expected code point. -/
theorem digitChar_toNat {d : Nat} (h : d < 10) : (digitChar d).toNat = 48 + d :=
  toNat_ofNat_valid (isValidChar_lt (by omega))

/-- Every character of `natChars` is a decimal digit. -/
theorem natChars_bounds (n : Nat) : ∀ c ∈ natChars n, 48 ≤ c.toNat ∧ c.toNat ≤ 57 := by
  induction n using Nat.strong_induction_on with
  | _ n ih =>
    intro c hc
    rw [natChars] at hc
    split_ifs at hc with h
    · simp at hc
      subst hc
      rw [digitChar_toNat h]
      omega
    · rw [List.mem_append] at hc
      rcases hc with hc | hc
      · exact ih (n / 10) (Nat.div_lt_self (by omega) (by omega)) c hc
      · simp at hc
        subst hc
        rw [digitChar_toNat (Nat.mod_lt _ (by omega))]
        omega

/-- `natChars` is never empty. -/
theorem natChars_ne_nil (n : Nat) : natChars n ≠ [] := by
  rw [natChars]
  split_ifs <;> simp

/-- Folding the decimal digits recovers the number (with any accumulator). -/
theorem foldl_natChars (n : Nat) :
    ∀ a : Nat, (natChars n).foldl (fun acc c => acc * 10 + (c.toNat - 48)) a
      = a * 10 ^ (natChars n).length + n := by
  induction n using Nat.strong_induction_on with
  | _ n ih =>
    intro a
    rw [natChars]
    split_ifs with h
    · simp [digitChar_toNat h]
    · rw [List.foldl_append]
      rw [ih (n / 10) (Nat.div_lt_self (by omega) (by omega)) a]
      simp only [List.foldl_cons, List.foldl_nil, List.length_append,
        List.length_cons, List.length_nil]
      rw [digitChar_toNat (Nat.mod_lt _ (by omega))]
      have hdm : n / 10 * 10 + n % 10 = n := Nat.div_add_mod' n 10
      have hcancel : 48 + n % 10 - 48 = n % 10 := by omega
      rw [hcancel]
      calc (a * 10 ^ (natChars (n / 10)).length + n / 10) * 10 + n % 10
          = a * (10 ^ (natChars (n / 10)).length * 10) + (n / 10 * 10 + n % 10) := by
            ring
        _ = a * 10 ^ ((natChars (n / 10)).length + 0 + 1) + n := by
            rw [hdm, pow_succ]


/-- `takeWhile`/`dropWhile` across a block that wholly satisfies the
predicate. -/
theorem takeWhile_dropWhile_append {p : Char → Bool} (xs rest : List Char)
    (h : ∀ x ∈ xs, p x = true) :
    (xs ++ rest).takeWhile p = xs ++ rest.takeWhile p ∧
      (xs ++ rest).dropWhile p = rest.dropWhile p := by
  induction xs with
  | nil => simp
  | cons x xs ih =>
    have hx : p x = true := h x (by simp)
    have := ih (fun y hy => h y (by simp [hy]))
    simp [List.takeWhile_cons, List.dropWhile_cons, hx, this]

/-- `parseNat` undoes `natChars` when the remainder starts with a
non-digit. -/
theorem parseNat_natChars (n : Nat) (rest : List Char)
    (hrest : ∀ r, rest.head? = some r → isDigitCh r = false) :
    parseNat (natChars n ++ rest) = some (n, rest) := by
  have hall : ∀ c ∈ natChars n, isDigitCh c = true := by
    intro c hc
    have := natChars_bounds n c hc
    simp [isDigitCh]
    omega
  obtain ⟨htake, hdrop⟩ := takeWhile_dropWhile_append (natChars n) rest hall
  have hrt : rest.takeWhile isDigitCh = [] := by
    cases rest with
    | nil => rfl
    | cons r rs =>
      have := hrest r rfl
      simp [List.takeWhile_cons, this]
  have hrd : rest.dropWhile isDigitCh = rest := by
    cases rest with
    | nil => rfl
    | cons r rs =>
      have := hrest r rfl
      simp [List.dropWhile_cons, this]
  unfold parseNat
  rw [htake, hrt, hdrop, hrd, List.append_nil]
  rw [if_neg (by simp [natChars_ne_nil n])]
  rw [foldl_natChars]
  simp

/-- `parseInt` undoes `intChars` when the remainder starts with a
non-digit. -/
theorem parseInt_intChars (v : Int) (rest : List Char)
    (hrest : ∀ r, rest.head? = some r → isDigitCh r = false) :
    parseInt (intChars v ++ rest) = some (v, rest) := by
  by_cases hv : v < 0
  · have hshape : intChars v = '-' :: natChars v.natAbs := by
      simp [intChars, hv]
    rw [hshape]
    simp only [List.cons_append, parseInt]
    rw [if_pos trivial, parseNat_natChars _ _ hrest]
    simp only []
    have hval : -((v.natAbs : Nat) : Int) = v := by omega
    rw [hval]
  · have hshape : intChars v = natChars v.natAbs := by
      simp [intChars, hv]
    cases hnc : natChars v.natAbs with
    | nil => exact absurd hnc (natChars_ne_nil _)
    | cons c0 cs =>
      have hc0 : 48 ≤ c0.toNat ∧ c0.toNat ≤ 57 :=
        natChars_bounds _ c0 (by rw [hnc]; simp)
      have hm : ('-' : Char).toNat = 45 := rfl
      have hne : ¬ (c0 = '-') := by
        intro e
        rw [e, hm] at hc0
        omega
      rw [hshape, hnc]
      simp only [List.cons_append, parseInt]
      rw [if_neg hne, ← List.cons_append, ← hnc, parseNat_natChars _ _ hrest]
      simp only []
      have hval : ((v.natAbs : Nat) : Int) = v := by omega
      rw [hval]

/-- `skipWs` is the identity on input whose head is not whitespace. -/
theorem skipWs_not_ws {c : Char} (rest : List Char)
    (h : ¬(c = ' ' ∨ c = Char.ofNat 9 ∨ c = Char.ofNat 10 ∨ c = Char.ofNat 13)) :
    skipWs (c :: rest) = c :: rest := by
  rw [skipWs, if_neg h]

/-- `skipWs` eats one space. -/
theorem skipWs_space (rest : List Char) : skipWs (' ' :: rest) = skipWs rest := by
  rw [skipWs, if_pos (Or.inl rfl)]

/-- A character with a digit-range or punctuation code point is not JSON
whitespace. -/
theorem not_ws_of_toNat {c : Char} (h48 : 48 ≤ c.toNat) (h57 : c.toNat ≤ 57) :
    ¬(c = ' ' ∨ c = Char.ofNat 9 ∨ c = Char.ofNat 10 ∨ c = Char.ofNat 13) := by
  rintro (rfl | rfl | rfl | rfl)
  · have h : (' ' : Char).toNat = 32 := rfl
    omega
  · have h : (Char.ofNat 9).toNat = 9 := rfl
    omega
  · have h : (Char.ofNat 10).toNat = 10 := rfl
    omega
  · have h : (Char.ofNat 13).toNat = 13 := rfl
    omega

/-- `skipWs` is the identity in front of a serialized integer. -/
theorem skipWs_intChars (v : Int) (rest : List Char) :
    skipWs (intChars v ++ rest) = intChars v ++ rest := by
  by_cases hv : v < 0
  · have hshape : intChars v = '-' :: natChars v.natAbs := by
      simp [intChars, hv]
    rw [hshape, List.cons_append]
    exact skipWs_not_ws _ (by decide)
  · have hshape : intChars v = natChars v.natAbs := by
      simp [intChars, hv]
    cases hnc : natChars v.natAbs with
    | nil => exact absurd hnc (natChars_ne_nil _)
    | cons c0 cs =>
      have hc0 : 48 ≤ c0.toNat ∧ c0.toNat ≤ 57 :=
        natChars_bounds _ c0 (by rw [hnc]; simp)
      rw [hshape, hnc, List.cons_append]
      exact skipWs_not_ws _ (not_ws_of_toNat hc0.1 hc0.2)


/-- `skipWs` is the identity in front of a string literal. -/
theorem skipWs_encString (k : String) (X : List Char) :
    skipWs (encString k ++ X) = encString k ++ X := by
  simp only [encString, List.cons_append]
  exact skipWs_not_ws _ (by decide)

/-- A nonempty member list starts with its first member. -/
theorem joinItems_cons_eq (q : String × Int) (qs : List (String × Int)) :
    ∃ Y, joinItems ((q :: qs).map encItem) = encItem q ++ Y := by
  cases qs with
  | nil => exact ⟨[], by simp [joinItems]⟩
  | cons r rs => exact ⟨_, rfl⟩

/-- `parseMembersF` undoes `joinItems` over encoded members, consuming the
closing brace, for any member budget at least the number of members. -/
theorem parseMembersF_items (m : List (String × Int)) :
    m ≠ [] → ∀ fuel, m.length ≤ fuel →
    parseMembersF fuel (joinItems (m.map encItem) ++ [closeBrace]) = some (m, []) := by
  induction m with
  | nil => intro h; exact absurd rfl h
  | cons p ps ih =>
    intro _ fuel hfuel
    obtain ⟨k, v⟩ := p
    cases fuel with
    | zero => simp at hfuel
    | succ f =>
      cases ps with
      | nil =>
        have hshape : joinItems (([(k, v)]).map encItem) ++ [closeBrace]
            = encString k ++ (':' :: ' ' :: (intChars v ++ [closeBrace])) := by
          simp [joinItems, encItem]
        rw [hshape]
        simp only [parseMembersF]
        rw [parseJString_encString]
        simp only []
        rw [skipWs_not_ws _ (by decide)]
        simp only [eq_self_iff_true, if_true]
        rw [skipWs_space, skipWs_intChars]
        rw [parseInt_intChars v [closeBrace]
          (by intro r hr; simp at hr; subst hr; decide)]
        simp only []
        rw [skipWs_not_ws _ (by decide)]
        simp only []
        rw [if_neg (by decide)]
        simp only [eq_self_iff_true, if_true]
      | cons q qs =>
        have hshape : joinItems (((k, v) :: q :: qs).map encItem) ++ [closeBrace]
            = encString k ++ (':' :: ' ' :: (intChars v ++
                (',' :: ' ' :: (joinItems ((q :: qs).map encItem) ++ [closeBrace])))) := by
          simp [joinItems, encItem]
        rw [hshape]
        simp only [parseMembersF]
        rw [parseJString_encString]
        simp only []
        rw [skipWs_not_ws _ (by decide)]
        simp only [eq_self_iff_true, if_true]
        rw [skipWs_space, skipWs_intChars]
        rw [parseInt_intChars v _
          (by intro r hr; simp at hr; subst hr; decide)]
        simp only []
        rw [skipWs_not_ws _ (by decide)]
        simp only [eq_self_iff_true, if_true]
        rw [skipWs_space]
        have hskip : skipWs (joinItems ((q :: qs).map encItem) ++ [closeBrace])
            = joinItems ((q :: qs).map encItem) ++ [closeBrace] := by
          obtain ⟨Y, hY⟩ := joinItems_cons_eq q qs
          rw [hY]
          rw [show encItem q = encString q.1 ++ (':' :: ' ' :: intChars q.2) from rfl]
          rw [List.append_assoc, List.append_assoc]
          exact skipWs_encString _ _
        rw [hskip]
        rw [ih (by simp) f (by simp at hfuel ⊢; omega)]


/-- A serialized member is nonempty. -/
theorem encItem_length_pos (p : String × Int) : 1 ≤ (encItem p).length := by
  simp [encItem, encString]

/-- The serialized member list is at least as long as the member count,
minus the final brace. -/
theorem length_joinItems_ge (m : List (String × Int)) :
    m.length ≤ (joinItems (m.map encItem)).length + 1 := by
  induction m with
  | nil => simp [joinItems]
  | cons p ps ih =>
    cases ps with
    | nil => simp [joinItems]
    | cons q qs =>
      have h1 := encItem_length_pos p
      have hL : joinItems ((p :: q :: qs).map encItem)
          = encItem p ++ ',' :: ' ' :: joinItems ((q :: qs).map encItem) := rfl
      rw [hL, List.length_append]
      simp only [List.length_cons] at ih ⊢
      omega

/-- `json.loads` undoes `json.dumps` on every string-keyed integer map. -/
theorem json_loads_obj_dumps (m : List (String × Int)) :
    json_loads_obj (dumps m) = some m := by
  cases m with
  | nil => rfl
  | cons p ps =>
    obtain ⟨Y, hY⟩ := joinItems_cons_eq p ps
    have hcons : joinItems ((p :: ps).map encItem) ++ [closeBrace]
        = '"' :: ((p.1.data.map escapeChar).flatten ++
            (['"'] ++ ((':' :: ' ' :: intChars p.2) ++ (Y ++ [closeBrace])))) := by
      rw [hY]
      rw [show encItem p = encString p.1 ++ (':' :: ' ' :: intChars p.2) from rfl]
      simp [encString, List.append_assoc]
    have hfuel : (p :: ps).length
        ≤ (joinItems ((p :: ps).map encItem) ++ [closeBrace]).length := by
      have h2 := length_joinItems_ge (p :: ps)
      rw [List.length_append]
      simp only [List.length_cons, List.length_nil] at h2 ⊢
      omega
    rw [show dumps (p :: ps)
        = openBrace :: (joinItems ((p :: ps).map encItem) ++ [closeBrace]) from rfl]
    simp only [json_loads_obj]
    rw [skipWs_not_ws _ (by decide)]
    simp only [eq_self_iff_true, if_true]
    rw [hcons]
    rw [skipWs_not_ws _ (by decide)]
    simp only []
    rw [if_neg (by decide)]
    rw [← hcons]
    rw [parseMembersF_items (p :: ps) (by simp) _ hfuel]
    simp [skipWs]


/-! ### Daily-log upsert lemmas -/

/-- A date-preserving conditional update commutes with looking up the date. -/
theorem find?_map_if (log : List DailyRow) (d : Int) (f : DailyRow → DailyRow)
    (hdate : ∀ r, (f r).date = r.date) :
    (log.map (fun r => if r.date = d then f r else r)).find?
        (fun r => r.date == d)
      = (log.find? (fun r => r.date == d)).map f := by
  induction log with
  | nil => rfl
  | cons r rs ih =>
    by_cases hr : r.date = d
    · rw [List.map_cons, if_pos hr]
      rw [List.find?_cons_of_pos _ (by simp [hdate r, hr])]
      rw [List.find?_cons_of_pos _ (by simp [hr])]
      rfl
    · rw [List.map_cons, if_neg hr]
      rw [List.find?_cons_of_neg _ (by simp [hr])]
      rw [List.find?_cons_of_neg _ (by simp [hr])]
      exact ih

/-- Looking up a date no row carries lands on an appended fresh row. -/
theorem find?_append_fresh (log : List DailyRow) (d : Int) (row : DailyRow)
    (hrow : row.date = d)
    (hnone : log.find? (fun r => r.date == d) = none) :
    (log ++ [row]).find? (fun r => r.date == d) = some row := by
  rw [List.find?_append, hnone]
  simp [hrow]

/-- The focus-minutes upsert adds exactly its argument to the date it
targets. -/
theorem get_daily_log_upsertFM (log : List DailyRow) (d : Int) (v : Int) :
    (get_daily_log (upsertFocusMinutes log d v) d).focus_minutes
      = (get_daily_log log d).focus_minutes + v := by
  unfold upsertFocusMinutes
  split_ifs with hany
  · unfold get_daily_log
    rw [find?_map_if log d _ (by intro r; rfl)]
    cases hfind : log.find? (fun r => r.date == d) with
    | none =>
      rw [List.find?_eq_none] at hfind
      rw [List.any_eq_true] at hany
      obtain ⟨r, hr, hbeq⟩ := hany
      exact absurd hbeq (hfind r hr)
    | some r0 => simp
  · have hfalse : (log.any fun r => r.date == d) = false := by
      cases h : log.any fun r => r.date == d
      · rfl
      · exact absurd h hany
    have hnone : log.find? (fun r => r.date == d) = none := by
      rw [List.find?_eq_none]
      intro x hx
      rw [List.any_eq_false] at hfalse
      exact hfalse x hx
    unfold get_daily_log
    rw [find?_append_fresh log d _ rfl hnone, hnone]
    simp

/-- The tasks-completed upsert increments the date it targets. -/
theorem get_daily_log_upsertTC (log : List DailyRow) (d : Int) :
    (get_daily_log (upsertTasksCompleted log d) d).tasks_completed
      = (get_daily_log log d).tasks_completed + 1 := by
  unfold upsertTasksCompleted
  split_ifs with hany
  · unfold get_daily_log
    rw [find?_map_if log d _ (by intro r; rfl)]
    cases hfind : log.find? (fun r => r.date == d) with
    | none =>
      rw [List.find?_eq_none] at hfind
      rw [List.any_eq_true] at hany
      obtain ⟨r, hr, hbeq⟩ := hany
      exact absurd hbeq (hfind r hr)
    | some r0 => simp
  · have hfalse : (log.any fun r => r.date == d) = false := by
      cases h : log.any fun r => r.date == d
      · rfl
      · exact absurd h hany
    have hnone : log.find? (fun r => r.date == d) = none := by
      rw [List.find?_eq_none]
      intro x hx
      rw [List.any_eq_false] at hfalse
      exact hfalse x hx
    unfold get_daily_log
    rw [find?_append_fresh log d _ rfl hnone, hnone]
    simp


/-! ### Claim theorems -/

/-- A task id absent from the tasks table is still absent after the
`UPDATE` statement of `complete_task`. -/
theorem get_task_complete_none (db : DB) (now : Nat) (today : Int) (tid : Nat)
    (h : get_task db tid = none) : (complete_task db now today tid).1 = none := by
  unfold get_task at h
  unfold complete_task get_task
  rw [List.find?_eq_none] at h ⊢
  intro x hx
  rw [List.mem_map] at hx
  obtain ⟨t, ht, rfl⟩ := hx
  have hne := h t ht
  by_cases hid : t.id = tid
  · simp [hid] at hne
  · simp [hid]

/-- C1: the claim says `complete_task` on an unknown id returns not-found
and leaves `daily_log` unchanged.  The code does return `none`, but it runs
the daily-log upsert unconditionally, so today's `tasks_completed` is
incremented even though no task was completed: the second conjunct exhibits
the increment on any database in which the id does not exist. -/
theorem complete_task_unknown_id (db : DB) (now : Nat) (today : Int)
    (task_id : Nat) (h : get_task db task_id = none) :
    (complete_task db now today task_id).1 = none ∧
    (get_daily_log (complete_task db now today task_id).2.daily_log
        today).tasks_completed
      = (get_daily_log db.daily_log today).tasks_completed + 1 := by
  refine ⟨get_task_complete_none db now today task_id h, ?_⟩
  show (get_daily_log (upsertTasksCompleted db.daily_log today)
      today).tasks_completed = _
  exact get_daily_log_upsertTC db.daily_log today

/-- Witness for `complete_task_unknown_id`: the empty database and id 9999. -/
theorem complete_task_unknown_id_witness :
    (complete_task DB.empty 0 0 9999).1 = none ∧
    (get_daily_log (complete_task DB.empty 0 0 9999).2.daily_log
        0).tasks_completed
      = (get_daily_log DB.empty.daily_log 0).tasks_completed + 1 :=
  complete_task_unknown_id DB.empty 0 0 9999 (by rfl)

/-- C2: `_calculate_streak` equals the specification reference on every
daily-log state and every today; with entries for exactly today and
yesterday the streak is 2, and with an entry only two days ago the streak
is 0. -/
theorem calculate_streak_spec :
    (∀ (log : List DailyRow) (today : Int),
      calculate_streak log today
        = refStreak ((log.filter (fun r => decide (0 < r.tasks_completed))).map
            (fun r => r.date)) today)
    ∧ (∀ today : Int,
        calculate_streak
          ([⟨today, 1, 0⟩, ⟨today - 1, 2, 0⟩] : List DailyRow) today = 2)
    ∧ (∀ today : Int,
        calculate_streak ([⟨today - 2, 1, 0⟩] : List DailyRow) today = 0) := by
  refine ⟨?_, ?_, ?_⟩
  · intro log today
    by_cases hrows : (log.filter fun r => decide (0 < r.tasks_completed)) = []
    · simp [calculate_streak, refStreak, hrows]
    · simp only [calculate_streak, refStreak]
      rw [if_neg (by simp [List.isEmpty_iff, hrows])]
  · intro today
    have hfil : (([⟨today, 1, 0⟩, ⟨today - 1, 2, 0⟩] : List DailyRow).filter
          (fun r => decide (0 < r.tasks_completed)))
        = [⟨today, 1, 0⟩, ⟨today - 1, 2, 0⟩] := by
      simp
    have hmap : (([⟨today, 1, 0⟩, ⟨today - 1, 2, 0⟩] : List DailyRow).map
        (fun r => r.date)) = [today, today - 1] := rfl
    have hcb : countBack [today, today - 1] today = 2 := by
      rw [countBack, dif_pos (by simp)]
      rw [countBack, dif_pos (by simp)]
      rw [countBack, dif_neg (by simp; omega)]
    simp only [calculate_streak, hfil, hmap]
    rw [if_neg (by simp), if_pos (by simp), hcb]
  · intro today
    have hfil : (([⟨today - 2, 1, 0⟩] : List DailyRow).filter
          (fun r => decide (0 < r.tasks_completed)))
        = [⟨today - 2, 1, 0⟩] := by
      simp
    have hmap : (([⟨today - 2, 1, 0⟩] : List DailyRow).map (fun r => r.date))
        = [today - 2] := rfl
    simp only [calculate_streak, hfil, hmap]
    rw [if_neg (by simp), if_neg (by simp; omega), if_neg (by simp)]

/-- C5: with zero trials, `accuracy_pct` and `avg_time_s` are 0, and
`interpret_stroop` computes an accuracy percentage of 0 and lands in the
low-accuracy sentence, with no division performed. -/
theorem stroop_zero_trials (c : Nat) (tt : ℚ) (pt : List (Bool × ℚ))
    (ms : Int) :
    (StroopResult.mk 0 c tt pt).accuracy_pct = 0 ∧
    (StroopResult.mk 0 c tt pt).avg_time_s = 0 ∧
    stroop_pct c 0 = 0 ∧
    interpret_stroop c 0 ms
      = "Low accuracy -- inhibitory control may be an area to work on."
          ++ " " ++ stroopSpeedSentence ms := by
  refine ⟨by simp [StroopResult.accuracy_pct],
    by simp [StroopResult.avg_time_s], by simp [stroop_pct], ?_⟩
  unfold interpret_stroop
  have h : stroop_pct c 0 = 0 := by simp [stroop_pct]
  rw [h]
  unfold stroopAccSentence
  rw [if_neg (by norm_num), if_neg (by norm_num), if_neg (by norm_num)]

/-- C9: create-style validation rejects an empty title and focus durations
outside 1..120, so these inputs never produce a model value to hand to the
storage layer. -/
theorem validation_rejects (pid : Option Nat) :
    TaskCreate.validate "" pid = none ∧
    (∀ (tid : Option Nat) (d : Int), d < 1 ∨ 120 < d →
      FocusSessionCreate.validate tid d = none) := by
  constructor
  · unfold TaskCreate.validate
    rw [if_neg (by simp)]
  · intro tid d hd
    unfold FocusSessionCreate.validate
    rw [if_neg (by omega)]

/-- Witness for `validation_rejects`: empty title, durations 0 and 121. -/
theorem validation_rejects_witness :
    TaskCreate.validate "" none = none ∧
    FocusSessionCreate.validate none 0 = none ∧
    FocusSessionCreate.validate none 121 = none :=
  ⟨(validation_rejects none).1,
   (validation_rejects none).2 none 0 (by norm_num),
   (validation_rejects none).2 none 121 (by norm_num)⟩


/-- Both random choices of one Stroop trial give a mismatched pair drawn
from the palette, whatever the random source supplies. -/
theorem stroop_choice_ok (k1 k2 : Nat) :
    pychoice STROOP_COLOURS k1
        ≠ pychoice (STROOP_COLOURS.filter
            (fun c => c != pychoice STROOP_COLOURS k1)) k2
    ∧ pychoice STROOP_COLOURS k1 ∈ STROOP_COLOURS
    ∧ pychoice (STROOP_COLOURS.filter
        (fun c => c != pychoice STROOP_COLOURS k1)) k2 ∈ STROOP_COLOURS := by
  have hk1 : k1 % 4 = 0 ∨ k1 % 4 = 1 ∨ k1 % 4 = 2 ∨ k1 % 4 = 3 := by omega
  have hk2 : k2 % 3 = 0 ∨ k2 % 3 = 1 ∨ k2 % 3 = 2 := by omega
  have hlen4 : STROOP_COLOURS.length = 4 := rfl
  rcases hk1 with h1 | h1 | h1 | h1 <;>
    (simp only [pychoice, hlen4, h1] ; rcases hk2 with h2 | h2 | h2 <;>
      simp [STROOP_COLOURS, h2])

/-- C4: for every requested count at least 1 and every sequence of random
choices, each generated Stroop trial has word different from ink colour,
both drawn from the fixed four-colour palette. -/
theorem generate_stroop_trials_spec (n : Nat) (g : Nat → Nat) (hn : 1 ≤ n) :
    ∀ tr ∈ generate_stroop_trials n g,
      tr.word ≠ tr.ink_colour ∧ tr.word ∈ STROOP_COLOURS ∧
        tr.ink_colour ∈ STROOP_COLOURS := by
  intro tr htr
  simp only [generate_stroop_trials, List.mem_map, List.mem_range] at htr
  obtain ⟨i, hi, rfl⟩ := htr
  exact stroop_choice_ok (g (2 * i)) (g (2 * i + 1))

/-- Witness for `generate_stroop_trials_spec`: one trial from the zero
choice stream. -/
theorem generate_stroop_trials_spec_witness :
    1 ≤ 1 ∧
    ∀ tr ∈ generate_stroop_trials 1 (fun _ => 0),
      tr.word ≠ tr.ink_colour ∧ tr.word ∈ STROOP_COLOURS ∧
        tr.ink_colour ∈ STROOP_COLOURS :=
  ⟨le_refl 1, generate_stroop_trials_spec 1 (fun _ => 0) (le_refl 1)⟩

/-- C3: for a valid answer set over the five fixed domains, the per-domain
scores sum to the total, the total is at most the maximum, and the maximum
is 60. -/
theorem score_bdefs_spec (answers : List (String × List Int))
    (hdom : answers.map Prod.fst = BDEFS_QUESTIONS.map Prod.fst)
    (hlen : ∀ p ∈ answers, p.2.length = 3)
    (hrange : ∀ p ∈ answers, ∀ x ∈ p.2, 1 ≤ x ∧ x ≤ 4) :
    ((score_bdefs answers).domain_scores.map Prod.snd).sum
        = (score_bdefs answers).score
    ∧ (score_bdefs answers).score ≤ (score_bdefs answers).max_score
    ∧ (score_bdefs answers).max_score = 60 := by
  have hmax : bdefs_max_score = 60 := by decide
  have hlen5 : answers.length = 5 := by
    have h := congrArg List.length hdom
    simpa using h
  refine ⟨?_, ?_, hmax⟩
  · show ((answers.map fun p => (p.1, p.2.sum)).map Prod.snd).sum
        = (answers.map fun p => p.2.sum).sum
    rw [List.map_map]
    rfl
  · have hbound : ∀ p ∈ answers, p.2.sum ≤ (12 : Int) := by
      intro p hp
      have h1 := hlen p hp
      have h2 := List.sum_le_card_nsmul p.2 4
        (fun x hx => (hrange p hp x hx).2)
      rw [h1] at h2
      simpa using h2
    have htot := List.sum_le_card_nsmul (answers.map fun p => p.2.sum) 12
      (by
        intro x hx
        rw [List.mem_map] at hx
        obtain ⟨p, hp, rfl⟩ := hx
        exact hbound p hp)
    rw [List.length_map, hlen5] at htot
    show (answers.map fun p => p.2.sum).sum ≤ bdefs_max_score
    rw [hmax]
    simpa using htot

/-- Witness for `score_bdefs_spec`: every rating 1 on every domain. -/
theorem score_bdefs_spec_witness :
    (([("Time Management", [1, 1, 1]),
       ("Organisation & Problem-Solving", [1, 1, 1]),
       ("Self-Restraint", [1, 1, 1]),
       ("Self-Motivation", [1, 1, 1]),
       ("Emotion Regulation", [1, 1, 1])] :
        List (String × List Int)).map Prod.fst
      = BDEFS_QUESTIONS.map Prod.fst) ∧
    ((score_bdefs [("Time Management", [1, 1, 1]),
       ("Organisation & Problem-Solving", [1, 1, 1]),
       ("Self-Restraint", [1, 1, 1]),
       ("Self-Motivation", [1, 1, 1]),
       ("Emotion Regulation", [1, 1, 1])]).domain_scores.map Prod.snd).sum
        = (score_bdefs [("Time Management", [1, 1, 1]),
       ("Organisation & Problem-Solving", [1, 1, 1]),
       ("Self-Restraint", [1, 1, 1]),
       ("Self-Motivation", [1, 1, 1]),
       ("Emotion Regulation", [1, 1, 1])]).score :=
  ⟨rfl, (score_bdefs_spec
    [("Time Management", [1, 1, 1]),
     ("Organisation & Problem-Solving", [1, 1, 1]),
     ("Self-Restraint", [1, 1, 1]),
     ("Self-Motivation", [1, 1, 1]),
     ("Emotion Regulation", [1, 1, 1])] rfl (by decide) (by decide)).1⟩

/-- C6: `interpret_bdefs` classifies by percentage of the maximum with
bands at 25, 50 and 75 percent, and the three boundary examples land in
the Minimal, Moderate and Significant bands. -/
theorem interpret_bdefs_spec :
    (∀ score max : Int, 0 < max →
      (((score : ℚ) / (max : ℚ) * 100 ≤ 25 →
          interpret_bdefs score max = BDEFS_MINIMAL)
       ∧ (25 < (score : ℚ) / (max : ℚ) * 100 →
          (score : ℚ) / (max : ℚ) * 100 ≤ 50 →
          interpret_bdefs score max = BDEFS_MILD)
       ∧ (50 < (score : ℚ) / (max : ℚ) * 100 →
          (score : ℚ) / (max : ℚ) * 100 ≤ 75 →
          interpret_bdefs score max = BDEFS_MODERATE)
       ∧ (75 < (score : ℚ) / (max : ℚ) * 100 →
          interpret_bdefs score max = BDEFS_SIGNIFICANT)))
    ∧ interpret_bdefs 15 60 = BDEFS_MINIMAL
    ∧ interpret_bdefs 31 60 = BDEFS_MODERATE
    ∧ interpret_bdefs 46 60 = BDEFS_SIGNIFICANT := by
  refine ⟨?_, ?_, ?_, ?_⟩
  · intro score max hmax
    refine ⟨?_, ?_, ?_, ?_⟩
    · intro h
      simp only [interpret_bdefs]
      rw [if_pos h]
    · intro h h2
      simp only [interpret_bdefs]
      rw [if_neg (by linarith), if_pos h2]
    · intro h h2
      simp only [interpret_bdefs]
      rw [if_neg (by linarith), if_neg (by linarith), if_pos h2]
    · intro h
      simp only [interpret_bdefs]
      rw [if_neg (by linarith), if_neg (by linarith), if_neg (by linarith)]
  · simp only [interpret_bdefs]
    rw [if_pos (by norm_num)]
  · simp only [interpret_bdefs]
    rw [if_neg (by norm_num), if_neg (by norm_num), if_pos (by norm_num)]
  · simp only [interpret_bdefs]
    rw [if_neg (by norm_num), if_neg (by norm_num), if_neg (by norm_num)]

/-- Witness for `interpret_bdefs_spec`: the Moderate band at 31 of 60. -/
theorem interpret_bdefs_spec_witness :
    (0 : Int) < 60 ∧ interpret_bdefs 31 60 = BDEFS_MODERATE :=
  ⟨by norm_num,
   (interpret_bdefs_spec.1 31 60 (by norm_num)).2.2.1 (by norm_num)
     (by norm_num)⟩

/-- C7: two focus sessions on the same day accumulate additively in
`focus_minutes`, and a first session on a day with no row inserts the row
carrying the first duration. -/
theorem log_focus_session_twice (db : DB) (now1 now2 : Nat) (today : Int)
    (tid1 tid2 : Option Nat) (d1 d2 : Int)
    (h11 : 1 ≤ d1) (h12 : d1 ≤ 120) (h21 : 1 ≤ d2) (h22 : d2 ≤ 120) :
    (get_daily_log ((log_focus_session
        (log_focus_session db now1 today ⟨tid1, d1⟩).2
        now2 today ⟨tid2, d2⟩).2).daily_log today).focus_minutes
      = (get_daily_log db.daily_log today).focus_minutes + (d1 + d2)
    ∧ (db.daily_log.find? (fun r => r.date == today) = none →
        (⟨today, 0, d1⟩ : DailyRow)
          ∈ (log_focus_session db now1 today ⟨tid1, d1⟩).2.daily_log) := by
  constructor
  · show (get_daily_log (upsertFocusMinutes
        (upsertFocusMinutes db.daily_log today d1) today d2)
          today).focus_minutes = _
    rw [get_daily_log_upsertFM, get_daily_log_upsertFM]
    omega
  · intro hnone
    show (⟨today, 0, d1⟩ : DailyRow) ∈ upsertFocusMinutes db.daily_log today d1
    have hfalse : (db.daily_log.any fun r => r.date == today) = false := by
      rw [List.any_eq_false]
      intro x hx
      exact List.find?_eq_none.mp hnone x hx
    unfold upsertFocusMinutes
    rw [if_neg (by simp [hfalse])]
    simp

/-- Witness for `log_focus_session_twice`: durations 10 and 15 from the
empty database. -/
theorem log_focus_session_twice_witness :
    (1 : Int) ≤ 10 ∧ (10 : Int) ≤ 120 ∧ (1 : Int) ≤ 15 ∧ (15 : Int) ≤ 120 ∧
    (get_daily_log ((log_focus_session
        (log_focus_session DB.empty 0 0 ⟨none, 10⟩).2
        0 0 ⟨none, 15⟩).2).daily_log 0).focus_minutes
      = (get_daily_log DB.empty.daily_log 0).focus_minutes + (10 + 15) :=
  ⟨by norm_num, by norm_num, by norm_num, by norm_num,
   (log_focus_session_twice DB.empty 0 0 0 none none 10 15
     (by norm_num) (by norm_num) (by norm_num) (by norm_num)).1⟩

/-- C10: `uncomplete_task` touches only the matching tasks row and leaves
every other table unchanged, in particular the daily log; consequently
complete, uncomplete, complete on an existing task increments today's
`tasks_completed` by 2. -/
theorem uncomplete_task_frame (db : DB) (task_id : Nat) :
    ((uncomplete_task db task_id).2.daily_log = db.daily_log
      ∧ (uncomplete_task db task_id).2.focus_sessions = db.focus_sessions
      ∧ (uncomplete_task db task_id).2.assessments = db.assessments
      ∧ ∀ i : Nat, (uncomplete_task db task_id).2.tasks[i]?
          = (db.tasks[i]?).map (fun t =>
              if t.id = task_id then
                { t with status := TaskStatus.pending, completed_at := none }
              else t))
    ∧ (∀ (now1 now2 : Nat) (today : Int),
        (∃ t ∈ db.tasks, t.id = task_id) →
        (get_daily_log
            ((complete_task
              (uncomplete_task
                (complete_task db now1 today task_id).2 task_id).2
              now2 today task_id).2).daily_log today).tasks_completed
          = (get_daily_log db.daily_log today).tasks_completed + 2) := by
  constructor
  · refine ⟨rfl, rfl, rfl, ?_⟩
    intro i
    show (db.tasks.map _)[i]? = _
    rw [List.getElem?_map]
  · intro now1 now2 today hexists
    show (get_daily_log (upsertTasksCompleted
        (upsertTasksCompleted db.daily_log today) today)
          today).tasks_completed = _
    rw [get_daily_log_upsertTC, get_daily_log_upsertTC]
    omega

/-- Witness for `uncomplete_task_frame`: a database with one pending
task. -/
theorem uncomplete_task_frame_witness :
    (∃ t ∈ ([⟨1, "t", none, TaskStatus.pending, 0, none⟩] : List TaskRow),
        t.id = 1) ∧
    (get_daily_log
        ((complete_task
          (uncomplete_task
            (complete_task
              (⟨[⟨1, "t", none, TaskStatus.pending, 0, none⟩], [], [], []⟩ : DB)
              0 0 1).2 1).2
          0 0 1).2).daily_log 0).tasks_completed
      = (get_daily_log
          (⟨[⟨1, "t", none, TaskStatus.pending, 0, none⟩], [], [], []⟩ :
            DB).daily_log 0).tasks_completed + 2 :=
  ⟨⟨⟨1, "t", none, TaskStatus.pending, 0, none⟩, by simp, rfl⟩,
   (uncomplete_task_frame
     (⟨[⟨1, "t", none, TaskStatus.pending, 0, none⟩], [], [], []⟩ : DB) 1).2
     0 0 0 ⟨⟨1, "t", none, TaskStatus.pending, 0, none⟩, by simp, rfl⟩⟩

/-- C8: serializing `domain_scores` and reading it back is the identity:
`json.loads (json.dumps m) = m` for every string-keyed integer map, and a
`save_assessment` followed by `list_assessments` on a database with no
prior assessments returns exactly the saved result with the original
map. -/
theorem save_assessment_roundtrip (m : List (String × Int))
    (hkeys : (m.map Prod.fst).Nodup) (db : DB) (hdb : db.assessments = [])
    (now : Nat) (ty : AssessmentType) (sc mx : Int) :
    json_loads_obj (dumps m) = some m
    ∧ ∃ a : AssessmentResult,
        list_assessments (save_assessment db now ⟨ty, sc, mx, m⟩).2 none 20
          = some [a]
        ∧ a.domain_scores = m := by
  refine ⟨json_loads_obj_dumps m, ?_⟩
  have hrow : (save_assessment db now ⟨ty, sc, mx, m⟩).2.assessments
      = db.assessments
          ++ [⟨db.assessments.length + 1, ty.value, sc, mx, dumps m, now⟩] :=
    rfl
  refine ⟨⟨db.assessments.length + 1, ty, sc, mx, m, now⟩, ?_, rfl⟩
  have hconv : ∀ idv : Nat, row_to_assessment
      ⟨idv, ty.value, sc, mx, dumps m, now⟩
      = some ⟨idv, ty, sc, mx, m, now⟩ := by
    intro idv
    unfold row_to_assessment
    have hty : parseAssessmentType ty.value = some ty := by
      cases ty <;> rfl
    rw [hty, json_loads_obj_dumps]
  unfold list_assessments
  rw [hrow, hdb]
  simp [sortByTakenAtDesc, insertDesc, List.mapM, List.mapM.loop, hconv]

/-- Witness for `save_assessment_roundtrip`: the map a to 1, b to 2 saved
into the empty database. -/
theorem save_assessment_roundtrip_witness :
    ((([("a", 1), ("b", 2)] : List (String × Int)).map Prod.fst).Nodup) ∧
    (DB.empty.assessments = []) ∧
    (json_loads_obj (dumps [("a", 1), ("b", 2)]) = some [("a", 1), ("b", 2)]
     ∧ ∃ a : AssessmentResult,
        list_assessments (save_assessment DB.empty 0
            ⟨AssessmentType.bdefs, 3, 60, [("a", 1), ("b", 2)]⟩).2 none 20
          = some [a]
        ∧ a.domain_scores = [("a", 1), ("b", 2)]) :=
  ⟨by decide, rfl,
   save_assessment_roundtrip [("a", 1), ("b", 2)] (by decide) DB.empty rfl 0
     AssessmentType.bdefs 3 60⟩


end Momentum
